import Mathlib

/-!
# Verification of `upup/pkg/fi/cloudup/awstasks/instance.go` (kops `Instance` task)

Shallow embedding of the single-resource convergence contract for the AWS
`Instance` task: state discovery (`Find`), transition validation
(`CheckChanges`), the live-provisioning backend (`RenderAWS`) and the
code-generation backend (`TerraformLink`), together with the package helper
`nameFromIAMARN`.

Conventions of the embedding:
* Go pointers (`*string`, `*bool`, struct pointers) become `Option _`;
  dereferencing a `nil` pointer is modelled as `GoResult.panic`.
* Fallible Go functions returning `(T, error)` become `GoResult T`
  (or `Except String T` for the opaque cloud-provider calls).
* The AWS cloud is modelled as a record of oracle functions
  (`FindCloud`, `AWSTarget`): each field stands for one synchronous
  provider call, with the answers the provider would give.
* `glog` warnings are not part of the return value in the source; where a
  claim is about a warning, a separate predicate mirrors the exact Go
  condition that guards the `glog.Warningf` call.
* Byte strings are `List Nat` (each < 256 in well-formed data; only lengths
  and identity of bytes matter to the verified properties).
-/

namespace KopsInstance

/-- Result of running a piece of Go code: a normal value, an `error` return
(with its message), or a runtime panic (nil-pointer dereference,
out-of-range index). -/
inductive GoResult (α : Type) where
  | ok : α → GoResult α
  | fail : String → GoResult α
  | panic : GoResult α
deriving DecidableEq, Repr

/-- `aws.StringValue`: dereference a `*string`, giving `""` for nil. -/
def awsStringValue : Option String → String
  | none => ""
  | some s => s

/-! ## Base64 (Go `encoding/base64`, `StdEncoding`)

The standard alphabet with `=` padding.  `DecodeString` is strict about the
alphabet and padding and fails (Go `error`) on malformed input. -/

/-- The 64 characters of the standard base64 alphabet, in index order. -/
def base64Alphabet : List Char :=
  "ABCDEFGHIJKLMNOPQRSTUVWXYZabcdefghijklmnopqrstuvwxyz0123456789+/".data

/-- Index of a character in the standard alphabet, `none` if it is not a
base64 digit. -/
def base64Index (c : Char) : Option Nat :=
  let i := base64Alphabet.indexOf c
  if i < 64 then some i else none

/-- Character for a 6-bit group. -/
def base64Char (n : Nat) : Char :=
  base64Alphabet.getD (n % 64) 'A'

/-- Encode a byte list in groups of three bytes to four characters,
padding the tail with `=`. -/
def base64EncodeGroups : List Nat → List Char
  | [] => []
  | [b0] =>
      [base64Char (b0 / 4), base64Char (b0 % 4 * 16), '=', '=']
  | [b0, b1] =>
      [base64Char (b0 / 4), base64Char (b0 % 4 * 16 + b1 / 16),
       base64Char (b1 % 16 * 4), '=']
  | b0 :: b1 :: b2 :: rest =>
      base64Char (b0 / 4) :: base64Char (b0 % 4 * 16 + b1 / 16) ::
      base64Char (b1 % 16 * 4 + b2 / 64) :: base64Char (b2 % 64) ::
      base64EncodeGroups rest

/-- Go `base64.StdEncoding.EncodeToString`. -/
def base64Encode (bs : List Nat) : String :=
  String.mk (base64EncodeGroups bs)

/-- Decode groups of four base64 characters; `none` on malformed input
(Go returns `CorruptInputError`). -/
def base64DecodeGroups : List Char → Option (List Nat)
  | [] => some []
  | [c0, c1, '=', '='] => do
      let i0 ← base64Index c0
      let i1 ← base64Index c1
      if i1 % 16 = 0 then some [i0 * 4 + i1 / 16] else none
  | [c0, c1, c2, '='] => do
      let i0 ← base64Index c0
      let i1 ← base64Index c1
      let i2 ← base64Index c2
      if i2 % 4 = 0 then
        some [i0 * 4 + i1 / 16, i1 % 16 * 16 + i2 / 4]
      else none
  | c0 :: c1 :: c2 :: c3 :: rest => do
      let i0 ← base64Index c0
      let i1 ← base64Index c1
      let i2 ← base64Index c2
      let i3 ← base64Index c3
      let tail ← base64DecodeGroups rest
      some ((i0 * 4 + i1 / 16) :: (i1 % 16 * 16 + i2 / 4) ::
            (i2 % 4 * 64 + i3) :: tail)
  | _ => none

/-- Go `base64.StdEncoding.DecodeString` (newline characters are skipped,
as in Go's decoder). -/
def base64Decode (s : String) : Option (List Nat) :=
  base64DecodeGroups (s.data.filter (fun c => c ≠ '\n' ∧ c ≠ '\r'))

/-! ## Go string helpers (`strings.Split`, `strings.HasPrefix`,
`strings.TrimPrefix`), over the character lists underlying strings. -/

/-- `strings.Split(s, sep)` for a one-character separator: split into the
(always non-empty) list of tokens between occurrences of `c`. -/
def splitOnChar (c : Char) : List Char → List (List Char)
  | [] => [[]]
  | x :: xs =>
    if x = c then [] :: splitOnChar c xs
    else
      match splitOnChar c xs with
      | [] => [[x]]
      | t :: ts => (x :: t) :: ts

/-- `strings.TrimPrefix(s, p)`: drop `p` from the front of `s` when it is a
prefix, otherwise return `s` unchanged. -/
def trimPrefixL (p s : List Char) : List Char :=
  if p.isPrefixOf s then s.drop p.length else s

/-! ## Data model

The `Instance` task struct and the slices of the AWS SDK response types that
`Find` reads.  Go pointer fields are `Option`s. -/

/-- `awstasks.Subnet`, reduced to the only field `Instance` reads/writes:
the subnet id (reference-only stub in discovery). -/
structure Subnet where
  id : Option String
deriving DecidableEq, Repr

/-- `awstasks.SSHKey`, reduced to its name (reference-only stub). -/
structure SSHKey where
  name : Option String
deriving DecidableEq, Repr

/-- `awstasks.SecurityGroup`, reduced to its id (reference-only stub). -/
structure SecurityGroup where
  id : Option String
deriving DecidableEq, Repr

/-- `awstasks.IAMInstanceProfile`, reduced to its name. -/
structure IAMInstanceProfile where
  name : Option String
deriving DecidableEq, Repr

/-- Modelled from the spec: `fi.Resource` (package `fi` is not under
`src/`) is an opaque startup-payload handle whose bytes are obtained by
`fi.ResourceAsBytes`, which can fail; `fi.NewBytesResource` wraps a byte
slice, and reading it back yields those bytes unchanged. -/
inductive Resource where
  | bytes : List Nat → Resource
  | failing : String → Resource
deriving DecidableEq, Repr

/-- Modelled from the spec: `fi.ResourceAsBytes` yields the payload's bytes
or an error. -/
def ResourceAsBytes : Resource → Except String (List Nat)
  | .bytes b => .ok b
  | .failing msg => .error msg

/-- Modelled from the spec: `fi.NewBytesResource` wraps bytes as a
`Resource` (round-trips byte-for-byte). -/
def NewBytesResource (b : List Nat) : Resource := .bytes b

/-- Modelled from the spec: `fi.RequiredField` builds the required-field
fault, descriptive of which field is missing. -/
def RequiredField (field : String) : String :=
  "Required field: " ++ field

/-- The `awstasks.Instance` resource descriptor.  Tags are a map from key
to value, represented as an association list with unique keys. -/
structure Instance where
  id : Option String
  userData : Option Resource
  subnet : Option Subnet
  privateIPAddress : Option String
  name : Option String
  tags : List (String × String)
  imageID : Option String
  instanceType : Option String
  sshKey : Option SSHKey
  securityGroups : List SecurityGroup
  associatePublicIP : Option Bool
  iamInstanceProfile : Option IAMInstanceProfile
deriving DecidableEq, Repr

/-- `const MaxUserDataSize = 16384`. -/
def MaxUserDataSize : Nat := 16384

/-- `ec2.Tag`: key/value, both `*string`. -/
structure EC2Tag where
  key : Option String
  value : Option String
deriving DecidableEq, Repr

/-- `ec2.InstanceNetworkInterfaceAssociation`, reduced to `PublicIp`. -/
structure EC2Association where
  publicIp : Option String
deriving DecidableEq, Repr

/-- `ec2.InstanceNetworkInterface`: the `Association` field is a struct
pointer and really can be nil (no public address association). -/
structure EC2NetworkInterface where
  association : Option EC2Association
deriving DecidableEq, Repr

/-- `ec2.GroupIdentifier`, reduced to `GroupId`. -/
structure EC2GroupIdentifier where
  groupId : Option String
deriving DecidableEq, Repr

/-- `ec2.Instance`, reduced to the fields `Find` reads.
`iamInstanceProfile` is `some arn` when the `IamInstanceProfile` struct
pointer is non-nil, carrying its (itself optional) `Arn` field. -/
structure EC2Instance where
  instanceId : Option String
  privateIpAddress : Option String
  instanceType : Option String
  imageId : Option String
  tags : List EC2Tag
  subnetId : Option String
  keyName : Option String
  securityGroups : List EC2GroupIdentifier
  networkInterfaces : List EC2NetworkInterface
  iamInstanceProfile : Option (Option String)
deriving DecidableEq, Repr

/-- `ec2.Image`, reduced to `ImageId`. -/
structure EC2Image where
  imageId : Option String
deriving DecidableEq, Repr

/-! ## Package helpers -/

/-- Modelled from the spec: `findNameTag` (defined elsewhere in package
`awstasks`, not under `src/`) derives the stable name from the provider's
`Name` tag convention: the value of the tag whose key is `"Name"`. -/
def findNameTag (tags : List EC2Tag) : Option String :=
  (tags.find? (fun t => t.key = some "Name")).bind (fun t => t.value)

/-- Modelled from the spec: `mapEC2TagsToMap` (tag bookkeeping helper, not
under `src/`) converts the provider tag list to the descriptor's key→value
mapping. -/
def mapEC2TagsToMap (tags : List EC2Tag) : List (String × String) :=
  tags.filterMap (fun t =>
    match t.key, t.value with
    | some k, some v => some (k, v)
    | _, _ => none)

/-- `nameFromIAMARN`: split the ARN on `:`, take the last token, trim the
`instance-profile/` prefix; nil ARN gives nil.  Never fails. -/
def nameFromIAMARN : Option String → Option String
  | none => none
  | some arn =>
    let tokens := splitOnChar ':' arn.data
    let last := tokens.getLastD []
    some (String.mk (trimPrefixL "instance-profile/".data last))

/-- The exact condition under which `nameFromIAMARN` logs its
`glog.Warningf("Unexpected ARN for instance profile: %q", *arn)` warning:
the last colon-token does not start with `instance-profile/`. -/
def nameFromIAMARNWarns : Option String → Bool
  | none => false
  | some arn =>
    let tokens := splitOnChar ':' arn.data
    let last := tokens.getLastD []
    ! ("instance-profile/".data.isPrefixOf last)

/-! ## Find (state discovery)

The provider is an oracle record: one field per synchronous AWS call that
`Find` can make.  `describeInstances` answers the filtered list query (the
filters restrict to the task's name tag and non-terminated states; the
oracle's answer is the list of reservations, each a list of instances).
`describeInstanceAttribute` answers the `userData` attribute query for an
instance id: `none` for a nil `UserData` attribute, `some v` for a present
attribute with (optional) `Value` `v`.  `resolveImage` is the image
alias-resolution capability. -/

/-- The slice of `awsup.AWSCloud` that `(*Instance).Find` consumes. -/
structure FindCloud where
  describeInstances : Except String (List (List EC2Instance))
  describeInstanceAttribute : String → Except String (Option (Option String))
  resolveImage : String → Except String (Option EC2Image)

/-- The `// Fetch instance UserData` block of `Find`: query the `userData`
attribute and base64-decode it; a nil attribute yields no payload; a query
or decode failure is a hard error. -/
def fetchUserData (cloud : FindCloud) (iid : String) :
    GoResult (Option (List Nat)) :=
  match cloud.describeInstanceAttribute iid with
  | .error err =>
    .fail ("error querying EC2 for user metadata for instance " ++ iid
           ++ ": " ++ err)
  | .ok none => .ok none
  | .ok (some v) =>
    match base64Decode (awsStringValue v) with
    | none => .fail "error decoding EC2 UserData"
    | some b => .ok (some b)

/-- The public-address scan of `Find`: `associatePublicIpAddress` starts
false and is set when `aws.StringValue(ni.Association.PublicIp) != ""`.
The source reads `ni.Association.PublicIp` without a nil check, so an
attachment with no association is a nil-pointer dereference (panic). -/
def scanAssociatePublicIp (acc : Bool) :
    List EC2NetworkInterface → GoResult Bool
  | [] => .ok acc
  | ni :: rest =>
    match ni.association with
    | none => .panic
    | some assoc =>
      scanAssociatePublicIp
        (acc || (awsStringValue assoc.publicIp ≠ "")) rest

/-- The `// Avoid spurious changes on ImageId` block of `Find`: when both
image ids are present and differ, resolve the desired reference; when the
resolution succeeds and yields the actual id, report the desired reference
as the actual image; otherwise (resolution error, not found, or a different
id) leave the actual image id as-is.  Resolution failures only warn. -/
def adjustImageID (cloud : FindCloud) (eImageID actualImageID : Option String) :
    Option String :=
  match eImageID, actualImageID with
  | some eImg, some aImg =>
    if aImg ≠ eImg then
      match cloud.resolveImage eImg with
      | .error _ => some aImg
      | .ok none => some aImg
      | .ok (some image) =>
        if awsStringValue image.imageId = aImg then some eImg
        else some aImg
    else some aImg
  | _, aID => aID

/-- The exact condition under which the anti-churn block logs its
`glog.Warningf` (resolution error, or image not found): both ids present
and differing, and `cloud.resolveImage` gives an error or `none`. -/
def adjustImageIDWarns (cloud : FindCloud)
    (eImageID actualImageID : Option String) : Bool :=
  match eImageID, actualImageID with
  | some eImg, some aImg =>
    if aImg ≠ eImg then
      match cloud.resolveImage eImg with
      | .error _ => true
      | .ok none => true
      | .ok (some _) => false
    else false
  | _, _ => false

/-- The normalized actual descriptor that `Find` builds from the unique
matching instance `i` (with the user-data fetch already performed, giving
`ud`, and the public-address scan, giving `pub`):
identity, private address, instance class and image copied; name from the
`Name` tag; user data wrapped as a bytes resource; subnet and SSH key as
reference-only stubs; security groups mapped to id stubs; IAM profile name
extracted from the ARN; tags mapped; image id adjusted by the anti-churn
rule against the desired descriptor `e`. -/
def mkActual (cloud : FindCloud) (e : Instance) (i : EC2Instance)
    (ud : Option (List Nat)) (pub : Bool) : Instance where
  id := i.instanceId
  userData := ud.map NewBytesResource
  subnet := i.subnetId.map (fun sid => { id := some sid })
  privateIPAddress := i.privateIpAddress
  name := findNameTag i.tags
  tags := mapEC2TagsToMap i.tags
  imageID := adjustImageID cloud e.imageID i.imageId
  instanceType := i.instanceType
  sshKey := i.keyName.map (fun k => { name := some k })
  securityGroups := i.securityGroups.map (fun sg => { id := sg.groupId })
  associatePublicIP := some pub
  iamInstanceProfile :=
    i.iamInstanceProfile.map (fun arn => { name := nameFromIAMARN arn })

/-- `(*Instance).Find(c)`: list non-terminated instances matching the name
filters; zero matches is `(nil, nil)`; two or more is the multiplicity
error (dereferencing `*e.Name` for the message); one match is normalized
into an actual descriptor, after which `e.ID = actual.ID` is the only write
to the desired descriptor.  The result pairs Go's return value with the
state of `e` after the call. -/
def Find (cloud : FindCloud) (e : Instance) :
    GoResult (Option Instance × Instance) :=
  match cloud.describeInstances with
  | .error err => .fail ("error listing instances: " ++ err)
  | .ok reservations =>
    let instances := reservations.flatten
    if instances.length = 0 then .ok (none, e)
    else if instances.length ≠ 1 then
      match e.name with
      | none => .panic
      | some n => .fail ("found multiple Instances with name: " ++ n)
    else
      match instances.head? with
      | none => .panic
      | some i =>
        match i.instanceId with
        | none => .fail "found instance, but InstanceId was nil"
        | some iid =>
          match fetchUserData cloud iid with
          | .fail msg => .fail msg
          | .panic => .panic
          | .ok ud =>
            match scanAssociatePublicIp false i.networkInterfaces with
            | .fail msg => .fail msg
            | .panic => .panic
            | .ok pub =>
              let actual := mkActual cloud e i ud pub
              .ok (some actual, { e with id := actual.id })

/-! ## CheckChanges -/

/-- `(*Instance).CheckChanges(a, e, changes)`: when an actual resource
exists, `e.Name` is required; nothing else is validated.  `none` is the
nil (success) error return. -/
def CheckChanges (a : Option Instance) (e : Instance)
    (_changes : Option Instance) : Option String :=
  match a with
  | some _ =>
    match e.name with
    | none => some (RequiredField "Name")
    | some _ => none
  | none => none

/-! ## RenderAWS (live provisioning backend)

The target is again an oracle record, one field per provider call, plus the
`buildEphemeralDevices` helper (package code not under `src/`).  To settle
ordering properties ("before any provider call", "tagging as the final
step"), `RenderAWS` additionally returns the trace of provider calls it
made, in order, including a call whose answer was an error. -/

/-- An ephemeral block-device mapping as sent in the request (opaque:
nothing in this task inspects it). -/
structure BlockDeviceMapping where
deriving DecidableEq, Repr

/-- `ec2.InstanceNetworkInterfaceSpecification` as built by the create
path. -/
structure NetworkInterfaceSpec where
  deviceIndex : Nat
  associatePublicIpAddress : Option Bool
  subnetId : Option String
  privateIpAddress : Option String
  groups : List (Option String)
deriving DecidableEq, Repr

/-- `ec2.RunInstancesInput` as built by the create path.
`iamInstanceProfileName` is `some _` when the `IamInstanceProfile`
specification struct is attached. -/
structure RunInstancesInput where
  imageId : Option String
  instanceType : Option String
  minCount : Nat
  maxCount : Nat
  keyName : Option String
  networkInterfaces : List NetworkInterfaceSpec
  blockDeviceMappings : Option (List (String × BlockDeviceMapping))
  userData : Option String
  iamInstanceProfileName : Option (Option String)
deriving DecidableEq, Repr

/-- One instance of a `RunInstances` response (`response.Instances`
element), reduced to `InstanceId`. -/
structure RunInstResult where
  instanceId : Option String
deriving DecidableEq, Repr

/-- One provider call made by the live backend. -/
inductive ProviderCall where
  | resolveImage : String → ProviderCall
  | runInstances : RunInstancesInput → ProviderCall
  | addTags : String → List (String × String) → ProviderCall
deriving DecidableEq, Repr

/-- The slice of `awsup.AWSAPITarget` that `RenderAWS` consumes.
`buildEphemeralDevices` is modelled from the spec: ephemeral local-storage
device mappings computed from the instance class's known layout (helper in
package `awstasks`, not under `src/`); it makes no provider call. -/
structure AWSTarget where
  resolveImage : String → Except String (Option EC2Image)
  runInstances : RunInstancesInput → Except String (List RunInstResult)
  addAWSTags : String → List (String × String) → Except String Unit
  buildEphemeralDevices : Option String →
    Except String (List (String × BlockDeviceMapping))

/-- Is a provider call the tag-reconciliation call? -/
def ProviderCall.isAddTags : ProviderCall → Bool
  | .addTags _ _ => true
  | _ => false

/-- The final statement of `RenderAWS`:
`return t.AddAWSTags(*e.ID, e.Tags)` — dereference the resolved identity
and reconcile tags against it, appending the call to the trace. -/
def renderTagsFinal (t : AWSTarget) (e : Instance)
    (calls : List ProviderCall) : List ProviderCall × GoResult Instance :=
  match e.id with
  | none => (calls, .panic)
  | some iid =>
    let calls := calls ++ [ProviderCall.addTags iid e.tags]
    match t.addAWSTags iid e.tags with
    | .error msg => (calls, .fail msg)
    | .ok _ => (calls, .ok e)

/-- The `RunInstances` provider call of the create path and the capture of
the provider-assigned identity into `e.ID`
(`e.ID = response.Instances[0].InstanceId`, panicking when the response
carries no instance). -/
def runAndCapture (t : AWSTarget) (request : RunInstancesInput)
    (e : Instance) : GoResult Instance :=
  match t.runInstances request with
  | .error msg => .fail ("error creating Instance: " ++ msg)
  | .ok insts =>
    match insts.head? with
    | none => .panic
    | some inst => .ok { e with id := inst.instanceId }

/-- The `if a == nil` block of `RenderAWS` (the create path), up to and
including the `RunInstances` call and the capture of the provider-assigned
identity into `e.ID`.  Mirrors the source order: required-`ImageID` check,
image resolution (provider call), `glog` line dereferencing `*e.Name`,
request construction (dereferencing the resolved image and `e.Subnet`),
ephemeral devices, user-data size check and encoding, IAM profile, then
`RunInstances` (provider call) and `response.Instances[0].InstanceId`. -/
def renderCreate (t : AWSTarget) (e : Instance) :
    List ProviderCall × GoResult Instance :=
  match e.imageID with
  | none => ([], .fail (RequiredField "ImageID"))
  | some ref =>
    let calls := [ProviderCall.resolveImage ref]
    match t.resolveImage ref with
    | .error msg => (calls, .fail msg)
    | .ok imageOpt =>
      match e.name with
      | none => (calls, .panic)
      | some _ =>
        match imageOpt with
        | none => (calls, .panic)
        | some image =>
          let securityGroupIDs := e.securityGroups.map (fun sg => sg.id)
          match e.subnet with
          | none => (calls, .panic)
          | some subnet =>
            let request : RunInstancesInput :=
              { imageId := image.imageId
                instanceType := e.instanceType
                minCount := 1
                maxCount := 1
                keyName := match e.sshKey with
                  | none => none
                  | some k => k.name
                networkInterfaces :=
                  [{ deviceIndex := 0
                     associatePublicIpAddress := e.associatePublicIP
                     subnetId := subnet.id
                     privateIpAddress := e.privateIPAddress
                     groups := securityGroupIDs }]
                blockDeviceMappings := none
                userData := none
                iamInstanceProfileName := none }
            match t.buildEphemeralDevices e.instanceType with
            | .error msg => (calls, .fail msg)
            | .ok bdms =>
              let request :=
                if bdms.length ≠ 0 then
                  { request with blockDeviceMappings := some bdms }
                else request
              let udStep : Except String RunInstancesInput :=
                match e.userData with
                | none => .ok request
                | some res =>
                  match ResourceAsBytes res with
                  | .error msg =>
                    .error ("error rendering Instance UserData: " ++ msg)
                  | .ok d =>
                    if d.length > MaxUserDataSize then
                      .error ("Instance UserData was too large ("
                              ++ toString d.length ++ " bytes)")
                    else
                      .ok { request with userData := some (base64Encode d) }
              match udStep with
              | .error msg => (calls, .fail msg)
              | .ok request =>
                let request :=
                  match e.iamInstanceProfile with
                  | none => request
                  | some p =>
                    { request with iamInstanceProfileName := some p.name }
                (calls ++ [ProviderCall.runInstances request],
                 runAndCapture t request e)

/-- `(*Instance).RenderAWS(t, a, e, changes)`: create when `a` is nil
(capturing the new identity into `e`), then — on the create path and the
update path alike — reconcile tags against `*e.ID` as the final step.
Returns the provider-call trace alongside Go's result; the result carries
the final state of `e`. -/
def RenderAWS (t : AWSTarget) (a : Option Instance) (e : Instance)
    (_changes : Option Instance) : List ProviderCall × GoResult Instance :=
  match a with
  | some _ => renderTagsFinal t e []
  | none =>
    match renderCreate t e with
    | (calls, .ok e1) => renderTagsFinal t e1 calls
    | (calls, .fail msg) => (calls, .fail msg)
    | (calls, .panic) => (calls, .panic)

/-! ## TerraformLink -/

/-- Modelled from the spec: `terraform.Literal` / `terraform.LiteralSelfLink`
(package `terraform` is not under `src/`) materialize a stable symbolic
cross-reference string derived deterministically from the resource type and
name — no provider calls, no mutation. -/
structure TerraformLiteral where
  value : String
deriving DecidableEq, Repr

/-- Modelled from the spec: deterministic self-link literal for a resource
type and name. -/
def LiteralSelfLink (resourceType nm : String) : TerraformLiteral :=
  ⟨"$\x7b" ++ resourceType ++ "." ++ nm ++ ".id\x7d"⟩

/-- `(*Instance).TerraformLink()`: `terraform.LiteralSelfLink("aws_instance",
*e.Name)`.  Dereferences `e.Name`. -/
def TerraformLink (e : Instance) : GoResult TerraformLiteral :=
  match e.name with
  | none => .panic
  | some n => .ok (LiteralSelfLink "aws_instance" n)

/-! ## Spec-side predicates -/

/-- Spec wording: a network attachment "carries an assigned (non-empty)
public address". -/
def attachmentHasPublicAddress (ni : EC2NetworkInterface) : Bool :=
  match ni.association with
  | some assoc => awsStringValue assoc.publicIp ≠ ""
  | none => false

/-! ## Concrete fixtures (used by witnesses and counterexamples) -/

/-- A discovered EC2 instance with well-formed data. -/
def sampleEC2Instance : EC2Instance where
  instanceId := some "i-1"
  privateIpAddress := some "10.0.0.1"
  instanceType := some "m5.large"
  imageId := some "ami-123"
  tags := [⟨some "Name", some "node-1"⟩]
  subnetId := some "subnet-1"
  keyName := some "key-1"
  securityGroups := [⟨some "sg-1"⟩]
  networkInterfaces := [⟨some ⟨some "3.4.5.6"⟩⟩]
  iamInstanceProfile := some (some "arn:aws:iam::1:instance-profile/p")

/-- A desired descriptor with a stable name and an image alias. -/
def sampleDesired : Instance where
  id := none
  userData := none
  subnet := some ⟨some "subnet-1"⟩
  privateIPAddress := none
  name := some "node-1"
  tags := [("Name", "node-1")]
  imageID := some "ami-x"
  instanceType := some "m5.large"
  sshKey := some ⟨some "key-1"⟩
  securityGroups := [⟨some "sg-1"⟩]
  associatePublicIP := some true
  iamInstanceProfile := some ⟨some "p"⟩

/-- A provider answering with exactly one match (`sampleEC2Instance`), a
nil `userData` attribute, and alias resolution mapping `"ami-x"` to
`"ami-123"`. -/
def sampleCloud : FindCloud where
  describeInstances := .ok [[sampleEC2Instance]]
  describeInstanceAttribute := fun _ => .ok none
  resolveImage := fun r =>
    if r = "ami-x" then .ok (some ⟨some "ami-123"⟩) else .ok none

/-- A provider whose unique matching instance has a network attachment
with no public-address association (`Association` nil). -/
def nilAssociationCloud : FindCloud where
  describeInstances :=
    .ok [[{ sampleEC2Instance with networkInterfaces := [⟨none⟩] }]]
  describeInstanceAttribute := fun _ => .ok none
  resolveImage := fun _ => .ok none

/-- A live target on which every call succeeds. -/
def sampleTarget : AWSTarget where
  resolveImage := fun r =>
    if r = "ami-x" then .ok (some ⟨some "ami-123"⟩) else .ok none
  runInstances := fun _ => .ok [⟨some "i-new"⟩]
  addAWSTags := fun _ _ => .ok ()
  buildEphemeralDevices := fun _ => .ok []

/-- The desired descriptor with a startup payload one byte over the
ceiling. -/
def oversizedDesired : Instance :=
  { sampleDesired with userData := some (.bytes (List.replicate 16385 7)) }

/-- The actual descriptor that discovery against `sampleCloud` returns for
`sampleDesired`. -/
def sampleFoundActual : Instance where
  id := some "i-1"
  userData := none
  subnet := some ⟨some "subnet-1"⟩
  privateIPAddress := some "10.0.0.1"
  name := some "node-1"
  tags := [("Name", "node-1")]
  imageID := some "ami-x"
  instanceType := some "m5.large"
  sshKey := some ⟨some "key-1"⟩
  securityGroups := [⟨some "sg-1"⟩]
  associatePublicIP := some true
  iamInstanceProfile := some ⟨some "p"⟩

/-! # Theorems

Shared helper lemmas first, then one theorem per claim (with witnesses and
counterexamples where required). -/

/-- Splitting never produces an empty token list. -/
theorem splitOnChar_ne_nil (c : Char) (l : List Char) :
    splitOnChar c l ≠ [] := by
  induction l with
  | nil => simp [splitOnChar]
  | cons x xs ih =>
    unfold splitOnChar
    by_cases h : x = c
    · simp [h]
    · simp only [h, if_false]
      cases hs : splitOnChar c xs <;> simp

/-- Unfolding equation: a leading separator starts a fresh empty token. -/
theorem splitOnChar_cons_eq (c : Char) (l : List Char) :
    splitOnChar c (c :: l) = [] :: splitOnChar c l := by
  simp [splitOnChar]

/-- Unfolding equation: a non-separator head joins the first token. -/
theorem splitOnChar_cons_ne (c x : Char) (l : List Char) (h : x ≠ c) :
    splitOnChar c (x :: l) =
      match splitOnChar c l with
      | [] => [[x]]
      | t :: ts => (x :: t) :: ts := by
  simp only [splitOnChar]
  rw [if_neg h]

/-- Splitting distributes over a separator occurrence. -/
theorem splitOnChar_append (c : Char) (xs ys : List Char) :
    splitOnChar c (xs ++ c :: ys) =
      splitOnChar c xs ++ splitOnChar c ys := by
  induction xs with
  | nil => simp [splitOnChar_cons_eq, splitOnChar]
  | cons x xs ih =>
    by_cases h : x = c
    · subst h
      rw [List.cons_append, splitOnChar_cons_eq, splitOnChar_cons_eq, ih,
        List.cons_append]
    · rw [List.cons_append, splitOnChar_cons_ne c x _ h,
        splitOnChar_cons_ne c x _ h, ih]
      cases hs : splitOnChar c xs with
      | nil => exact absurd hs (splitOnChar_ne_nil c xs)
      | cons t ts => simp

/-- A separator-free list is a single token. -/
theorem splitOnChar_eq_single (c : Char) (l : List Char) (h : c ∉ l) :
    splitOnChar c l = [l] := by
  induction l with
  | nil => simp [splitOnChar]
  | cons x xs ih =>
    simp only [List.mem_cons, not_or] at h
    unfold splitOnChar
    rw [if_neg (fun hh => h.1 hh.symm), ih h.2]

/-- A list is a Boolean prefix of itself followed by anything. -/
theorem isPrefixOf_append_self (p s : List Char) :
    p.isPrefixOf (p ++ s) = true := by
  induction p with
  | nil => simp [List.isPrefixOf]
  | cons a p ih => simp [List.isPrefixOf, ih]

/-- Trimming a prefix that is there removes exactly it. -/
theorem trimPrefixL_append (p s : List Char) :
    trimPrefixL p (p ++ s) = s := by
  unfold trimPrefixL
  rw [if_pos (isPrefixOf_append_self p s), List.drop_left]

/-- When the public-address scan completes, the flag it computes is the
disjunction of the accumulator with "some attachment carries an assigned
public address". -/
theorem scanAssociatePublicIp_ok (nis : List EC2NetworkInterface)
    (acc b : Bool) (h : scanAssociatePublicIp acc nis = .ok b) :
    b = (acc || nis.any attachmentHasPublicAddress) := by
  induction nis generalizing acc with
  | nil =>
    simp only [scanAssociatePublicIp] at h
    cases h
    simp
  | cons ni rest ih =>
    cases ha : ni.association with
    | none =>
      simp only [scanAssociatePublicIp, ha] at h
      exact GoResult.noConfusion h
    | some assoc =>
      simp only [scanAssociatePublicIp, ha] at h
      rw [ih _ h]
      simp [attachmentHasPublicAddress, ha, Bool.or_assoc]

/-- Path inversion for `Find` on the unique-match path: with one matching
instance whose id is present, a successful user-data fetch and a completed
public-address scan, `Find` returns the normalized actual descriptor and
writes exactly the resolved identity into the desired descriptor. -/
theorem Find_single {cloud : FindCloud} (e : Instance) {i : EC2Instance}
    {iid : String} {ud : Option (List Nat)} {pub : Bool}
    {res : List (List EC2Instance)}
    (hres : cloud.describeInstances = .ok res)
    (hflat : res.flatten = [i])
    (hid : i.instanceId = some iid)
    (hud : fetchUserData cloud iid = .ok ud)
    (hscan : scanAssociatePublicIp false i.networkInterfaces = .ok pub) :
    Find cloud e = .ok (some (mkActual cloud e i ud pub),
                        { e with id := i.instanceId }) := by
  unfold Find
  rw [hres]
  simp only [hflat, List.length_cons, List.length_nil, List.head?_cons,
    Nat.zero_add, hid, hud, hscan]
  norm_num
  simp only [mkActual]
  exact hid

/-- C1: For every discovery call (Find) on a stable name: if zero
non-terminated instances match, it returns absent (nil) and no error; if
exactly one matches (with well-formed provider data: an id, a successful
user-data side query, a completable public-address scan), it returns a
normalized Descriptor; if two or more match, it fails with a multiplicity
error and returns no value. -/
theorem C1_find_zero_one_many (cloud : FindCloud) (e : Instance)
    (n : String) (res : List (List EC2Instance))
    (hn : e.name = some n)
    (hres : cloud.describeInstances = .ok res) :
    (res.flatten = [] → Find cloud e = .ok (none, e)) ∧
    (2 ≤ res.flatten.length →
      Find cloud e =
        .fail ("found multiple Instances with name: " ++ n)) ∧
    (∀ i iid ud pub, res.flatten = [i] → i.instanceId = some iid →
      fetchUserData cloud iid = .ok ud →
      scanAssociatePublicIp false i.networkInterfaces = .ok pub →
      ∃ actual,
        Find cloud e = .ok (some actual, { e with id := actual.id }) ∧
        actual.id = some iid) := by
  refine ⟨?_, ?_, ?_⟩
  · intro hflat
    unfold Find
    rw [hres]
    simp [hflat]
  · intro hlen
    unfold Find
    rw [hres]
    have h0 : ¬ res.flatten.length = 0 := by omega
    have h1 : ¬ res.flatten.length = 1 := by omega
    dsimp only
    rw [if_neg h0, if_pos h1]
    simp only [hn]
  · intro i iid ud pub hflat hid hud hscan
    refine ⟨mkActual cloud e i ud pub, ?_, hid⟩
    exact Find_single e hres hflat hid hud hscan

/-- C1 witness: a provider with no matching instance makes discovery
return absent without error, and one with two matches makes it fail with
the multiplicity error. -/
theorem C1_witness :
    Find { sampleCloud with describeInstances := .ok [] } sampleDesired =
      .ok (none, sampleDesired) ∧
    Find { sampleCloud with
            describeInstances :=
              .ok [[sampleEC2Instance], [sampleEC2Instance]] }
        sampleDesired =
      .fail ("found multiple Instances with name: " ++ "node-1") :=
  ⟨(C1_find_zero_one_many _ sampleDesired "node-1" [] rfl rfl).1 rfl,
   (C1_find_zero_one_many _ sampleDesired "node-1"
      [[sampleEC2Instance], [sampleEC2Instance]] rfl rfl).2.1 (by decide)⟩

/-- C2: on the unique-match path, when desired and actual image ids
differ, `Find` resolves the desired reference: if resolution yields the
actual id, the returned actual descriptor reports the desired reference
(no spurious diff); if resolution yields a different id, fails, or finds
nothing, the actual id is reported as-is — and in the failure cases the
discovery still succeeds (the failure only logs a warning). -/
theorem C2_find_image_antichurn (cloud : FindCloud) (e : Instance)
    (i : EC2Instance) (iid x ami : String) (ud : Option (List Nat))
    (pub : Bool) (res : List (List EC2Instance))
    (hres : cloud.describeInstances = .ok res)
    (hflat : res.flatten = [i])
    (hid : i.instanceId = some iid)
    (hud : fetchUserData cloud iid = .ok ud)
    (hscan : scanAssociatePublicIp false i.networkInterfaces = .ok pub)
    (hx : e.imageID = some x)
    (hami : i.imageId = some ami)
    (hdiff : ami ≠ x) :
    (∀ img, cloud.resolveImage x = .ok (some img) →
      awsStringValue img.imageId = ami →
      ∃ actual,
        Find cloud e = .ok (some actual, { e with id := some iid }) ∧
        actual.imageID = some x) ∧
    (∀ img, cloud.resolveImage x = .ok (some img) →
      awsStringValue img.imageId ≠ ami →
      ∃ actual,
        Find cloud e = .ok (some actual, { e with id := some iid }) ∧
        actual.imageID = some ami) ∧
    (∀ msg, cloud.resolveImage x = .error msg →
      ∃ actual,
        Find cloud e = .ok (some actual, { e with id := some iid }) ∧
        actual.imageID = some ami) ∧
    (cloud.resolveImage x = .ok none →
      ∃ actual,
        Find cloud e = .ok (some actual, { e with id := some iid }) ∧
        actual.imageID = some ami) := by
  have hfind := Find_single e hres hflat hid hud hscan
  rw [hid] at hfind
  refine ⟨?_, ?_, ?_, ?_⟩
  · intro img hr heq
    refine ⟨_, hfind, ?_⟩
    simp only [mkActual, adjustImageID, hx, hami]
    rw [if_pos hdiff]
    simp only [hr]
    rw [if_pos heq]
  · intro img hr hne
    refine ⟨_, hfind, ?_⟩
    simp only [mkActual, adjustImageID, hx, hami]
    rw [if_pos hdiff]
    simp only [hr]
    rw [if_neg hne]
  · intro msg hr
    refine ⟨_, hfind, ?_⟩
    simp only [mkActual, adjustImageID, hx, hami]
    rw [if_pos hdiff]
    simp only [hr]
  · intro hr
    refine ⟨_, hfind, ?_⟩
    simp only [mkActual, adjustImageID, hx, hami]
    rw [if_pos hdiff]
    simp only [hr]

/-- C2 witness: with desired image `"ami-x"`, actual id `"ami-123"`, and
the provider resolving `"ami-x"` to `"ami-123"`, discovery reports the
actual image as `"ami-x"`. -/
theorem C2_witness :
    ∃ actual,
      Find sampleCloud sampleDesired =
        .ok (some actual, { sampleDesired with id := some "i-1" }) ∧
      actual.imageID = some "ami-x" :=
  (C2_find_image_antichurn sampleCloud sampleDesired sampleEC2Instance
      "i-1" "ami-x" "ami-123" none true [[sampleEC2Instance]]
      rfl rfl rfl rfl (by decide) rfl rfl (by decide)).1
    ⟨some "ami-123"⟩ rfl rfl

/-- C5: on the unique-match path, the `AssociatePublicIP` flag of the
returned actual descriptor is true iff at least one of the instance's
network attachments carries an assigned (non-empty) public address.  The
desired descriptor `e` — and with it the request-time flag
`e.associatePublicIP` — is arbitrary and plays no role in the
characterization. -/
theorem C5_find_public_address_flag (cloud : FindCloud) (e : Instance)
    (i : EC2Instance) (iid : String) (ud : Option (List Nat)) (pub : Bool)
    (res : List (List EC2Instance))
    (hres : cloud.describeInstances = .ok res)
    (hflat : res.flatten = [i])
    (hid : i.instanceId = some iid)
    (hud : fetchUserData cloud iid = .ok ud)
    (hscan : scanAssociatePublicIp false i.networkInterfaces = .ok pub) :
    ∃ actual,
      Find cloud e = .ok (some actual, { e with id := some iid }) ∧
      actual.associatePublicIP = some pub ∧
      (pub = true ↔ ∃ ni ∈ i.networkInterfaces, ∃ assoc,
        ni.association = some assoc ∧ awsStringValue assoc.publicIp ≠ "") := by
  have hfind := Find_single e hres hflat hid hud hscan
  rw [hid] at hfind
  refine ⟨_, hfind, rfl, ?_⟩
  rw [scanAssociatePublicIp_ok _ _ _ hscan]
  simp only [Bool.false_or, List.any_eq_true]
  constructor
  · rintro ⟨ni, hmem, hf⟩
    refine ⟨ni, hmem, ?_⟩
    unfold attachmentHasPublicAddress at hf
    cases hassoc : ni.association with
    | none => rw [hassoc] at hf; cases hf
    | some assoc =>
      rw [hassoc] at hf
      exact ⟨assoc, rfl, by simpa using hf⟩
  · rintro ⟨ni, hmem, assoc, hassoc, hne⟩
    refine ⟨ni, hmem, ?_⟩
    unfold attachmentHasPublicAddress
    rw [hassoc]
    simpa using hne

/-- C5 witness: against `sampleCloud`, whose unique instance has one
attachment with public address `"3.4.5.6"`, the discovered flag is true
and agrees with the attachment characterization. -/
theorem C5_witness :
    ∃ actual,
      Find sampleCloud sampleDesired =
        .ok (some actual, { sampleDesired with id := some "i-1" }) ∧
      actual.associatePublicIP = some true ∧
      (true = true ↔ ∃ ni ∈ sampleEC2Instance.networkInterfaces, ∃ assoc,
        ni.association = some assoc ∧ awsStringValue assoc.publicIp ≠ "") :=
  C5_find_public_address_flag sampleCloud sampleDesired sampleEC2Instance
    "i-1" none true [[sampleEC2Instance]] rfl rfl rfl rfl (by decide)

/-- C9: a discovery call writes at most the resolved identity into the
desired descriptor it was invoked on: whenever `Find` returns without
error, every field of the desired descriptor other than `ID` is unchanged
(and in particular tags, instance class, network placement, security
groups, credential and privilege bindings, and UserData are untouched). -/
theorem C9_find_frame (cloud : FindCloud) (e : Instance)
    (r : Option Instance) (e' : Instance)
    (h : Find cloud e = .ok (r, e')) :
    e'.userData = e.userData ∧ e'.subnet = e.subnet ∧
    e'.privateIPAddress = e.privateIPAddress ∧ e'.name = e.name ∧
    e'.tags = e.tags ∧ e'.imageID = e.imageID ∧
    e'.instanceType = e.instanceType ∧ e'.sshKey = e.sshKey ∧
    e'.securityGroups = e.securityGroups ∧
    e'.associatePublicIP = e.associatePublicIP ∧
    e'.iamInstanceProfile = e.iamInstanceProfile := by
  unfold Find at h
  cases hdi : cloud.describeInstances with
  | error msg =>
    rw [hdi] at h
    simp only [] at h
    exact GoResult.noConfusion h
  | ok res =>
    rw [hdi] at h
    dsimp only at h
    by_cases h0 : res.flatten.length = 0
    · rw [if_pos h0] at h
      injection h with h1
      injection h1 with h2 h3
      subst h3
      simp
    · rw [if_neg h0] at h
      by_cases h1 : res.flatten.length ≠ 1
      · rw [if_pos h1] at h
        cases hn : e.name with
        | none => simp only [hn] at h; exact GoResult.noConfusion h
        | some n => simp only [hn] at h; exact GoResult.noConfusion h
      · rw [if_neg h1] at h
        cases hh : res.flatten.head? with
        | none => simp only [hh] at h; exact GoResult.noConfusion h
        | some i =>
          simp only [hh] at h
          cases hiid : i.instanceId with
          | none => simp only [hiid] at h; exact GoResult.noConfusion h
          | some iid =>
            simp only [hiid] at h
            cases hfu : fetchUserData cloud iid with
            | fail msg => simp only [hfu] at h; exact GoResult.noConfusion h
            | panic => simp only [hfu] at h; exact GoResult.noConfusion h
            | ok ud =>
              simp only [hfu] at h
              cases hsc : scanAssociatePublicIp false i.networkInterfaces with
              | fail msg => simp only [hsc] at h; exact GoResult.noConfusion h
              | panic => simp only [hsc] at h; exact GoResult.noConfusion h
              | ok pub =>
                simp only [hsc] at h
                injection h with h1
                injection h1 with h2 h3
                subst h3
                simp

/-- C9 witness: a zero-match discovery leaves the desired descriptor's
name unchanged (applied to all the other fields as well through the
theorem). -/
theorem C9_witness :
    sampleDesired.userData = sampleDesired.userData ∧
    sampleDesired.subnet = sampleDesired.subnet ∧
    sampleDesired.privateIPAddress = sampleDesired.privateIPAddress ∧
    sampleDesired.name = sampleDesired.name ∧
    sampleDesired.tags = sampleDesired.tags ∧
    sampleDesired.imageID = sampleDesired.imageID ∧
    sampleDesired.instanceType = sampleDesired.instanceType ∧
    sampleDesired.sshKey = sampleDesired.sshKey ∧
    sampleDesired.securityGroups = sampleDesired.securityGroups ∧
    sampleDesired.associatePublicIP = sampleDesired.associatePublicIP ∧
    sampleDesired.iamInstanceProfile = sampleDesired.iamInstanceProfile :=
  C9_find_frame { sampleCloud with describeInstances := .ok [] }
    sampleDesired none sampleDesired (by decide)

/-- C10: the public-address scan is NOT total on the shapes the provider
can return: a discovered instance with a network attachment that carries
no public-address association at all makes `Find` dereference the nil
`Association` pointer and panic.  (The claim asserts the scan completes
without faulting; the code contradicts the spec's stated intent here.) -/
theorem C10_find_nil_association_panics :
    Find nilAssociationCloud sampleDesired = .panic := by decide

/-- C6: `CheckChanges` fails with the required-field fault naming `Name`
exactly when an actual resource exists and the desired descriptor's stable
name is absent; in every other case it succeeds; and no other field of the
desired descriptor (or of the delta) influences the outcome. -/
theorem C6_checkChanges_name_required (a : Option Instance) (e : Instance)
    (ch : Option Instance) :
    (CheckChanges a e ch = some (RequiredField "Name") ↔
      a.isSome = true ∧ e.name = none) ∧
    (CheckChanges a e ch = none ↔ ¬(a.isSome = true ∧ e.name = none)) ∧
    (∀ (e2 : Instance) (ch2 : Option Instance), e2.name = e.name →
      CheckChanges a e2 ch2 = CheckChanges a e ch) := by
  refine ⟨?_, ?_, ?_⟩
  · cases a with
    | none => simp [CheckChanges]
    | some a0 =>
      cases hn : e.name with
      | none => simp [CheckChanges, hn]
      | some n => simp [CheckChanges, hn]
  · cases a with
    | none => simp [CheckChanges]
    | some a0 =>
      cases hn : e.name with
      | none => simp [CheckChanges, hn, RequiredField]
      | some n => simp [CheckChanges, hn]
  · intro e2 ch2 hname
    cases a with
    | none => simp [CheckChanges]
    | some a0 => simp only [CheckChanges, hname]

/-- C6 witness: with an existing actual resource and a desired descriptor
whose name is absent, validation fails with exactly the `Name`
required-field fault. -/
theorem C6_witness :
    CheckChanges (some sampleFoundActual)
        { sampleDesired with name := none } none =
      some (RequiredField "Name") :=
  (C6_checkChanges_name_required (some sampleFoundActual)
      { sampleDesired with name := none } none).1.mpr ⟨rfl, rfl⟩

/-- C7: `nameFromIAMARN` returns absent for an absent ARN; for any present
ARN it returns a name and never fails; when the last colon-separated token
is `instance-profile/` followed by a (colon-free) name, it returns exactly
that trailing path segment; and on an unexpected format (no
`instance-profile/` prefix on the last token) it logs the warning yet still
returns the token as the name. -/
theorem C7_nameFromIAMARN_extraction :
    nameFromIAMARN none = none ∧
    (∀ arn : String, ∃ nm : String, nameFromIAMARN (some arn) = some nm) ∧
    (∀ front nm : String, ':' ∉ nm.data →
      nameFromIAMARN (some (front ++ ":instance-profile/" ++ nm)) =
        some nm) ∧
    (∀ arn : String, ':' ∉ arn.data →
      "instance-profile/".data.isPrefixOf arn.data = false →
      nameFromIAMARNWarns (some arn) = true ∧
      nameFromIAMARN (some arn) = some arn) := by
  refine ⟨rfl, ?_, ?_, ?_⟩
  · intro arn
    exact ⟨_, rfl⟩
  · intro front nm hnm
    have hdata : (front ++ ":instance-profile/" ++ nm).data =
        front.data ++ ':' :: ("instance-profile/".data ++ nm.data) := by
      rw [String.data_append, String.data_append]
      simp
    have hno : ':' ∉ "instance-profile/".data ++ nm.data := by
      intro hmem
      rcases List.mem_append.mp hmem with hm | hm
      · exact absurd hm (by decide)
      · exact hnm hm
    unfold nameFromIAMARN
    dsimp only
    rw [hdata, splitOnChar_append, splitOnChar_eq_single ':' _ hno,
      List.getLastD_concat, trimPrefixL_append]
  · intro arn hcolon hpfx
    have hsingle := splitOnChar_eq_single ':' arn.data hcolon
    constructor
    · have h1 : nameFromIAMARNWarns (some arn) =
          ! ("instance-profile/".data.isPrefixOf
              ((splitOnChar ':' arn.data).getLastD [])) := rfl
      have h2 : (([arn.data] : List (List Char)).getLastD []) = arn.data :=
        rfl
      rw [h1, hsingle, h2, hpfx]
      rfl
    · have h1 : nameFromIAMARN (some arn) =
          some (String.mk (trimPrefixL "instance-profile/".data
              ((splitOnChar ':' arn.data).getLastD []))) := rfl
      have h2 : (([arn.data] : List (List Char)).getLastD []) = arn.data :=
        rfl
      rw [h1, hsingle, h2]
      unfold trimPrefixL
      rw [hpfx]
      simp

/-- C7 witness: the standard ARN shape yields the trailing path segment,
and a malformed ARN still yields a name while warning. -/
theorem C7_witness :
    nameFromIAMARN
        (some ("arn:aws:iam::123456789012" ++ ":instance-profile/"
               ++ "nodes.example.com")) =
      some "nodes.example.com" ∧
    nameFromIAMARNWarns (some "garbage") = true ∧
    nameFromIAMARN (some "garbage") = some "garbage" :=
  ⟨C7_nameFromIAMARN_extraction.2.2.1 "arn:aws:iam::123456789012"
      "nodes.example.com" (by decide),
   (C7_nameFromIAMARN_extraction.2.2.2 "garbage" (by decide) (by decide)).1,
   (C7_nameFromIAMARN_extraction.2.2.2 "garbage" (by decide) (by decide)).2⟩

/-- C8: the code-generation backend's symbolic reference is a
deterministic function of the resource's stable name alone: two
descriptors agreeing on `name` — whatever their other fields — produce the
same `TerraformLink` result.  (In the embedding `TerraformLink` is a pure
function of the descriptor: it makes no provider call and mutates no
state.) -/
theorem C8_terraformLink_deterministic (e1 e2 : Instance)
    (h : e1.name = e2.name) :
    TerraformLink e1 = TerraformLink e2 := by
  unfold TerraformLink
  rw [h]

/-- C8 witness: two descriptors sharing only the stable name give the same
symbolic reference. -/
theorem C8_witness :
    TerraformLink sampleDesired =
      TerraformLink { sampleFoundActual with name := some "node-1" } :=
  C8_terraformLink_deterministic sampleDesired
    { sampleFoundActual with name := some "node-1" } rfl

/-- The create path never performs the tag-reconciliation call itself:
no element of its provider-call trace is an `addTags`. -/
theorem renderCreate_no_addTags (t : AWSTarget) (e : Instance) :
    ∀ c ∈ (renderCreate t e).1, c.isAddTags = false := by
  intro c hc
  unfold renderCreate at hc
  cases him : e.imageID with
  | none =>
    rw [him] at hc
    simp at hc
  | some ref =>
    rw [him] at hc
    dsimp only at hc
    cases hri : t.resolveImage ref with
    | error msg =>
      rw [hri] at hc
      simp only [List.mem_singleton] at hc
      subst hc; rfl
    | ok imageOpt =>
      rw [hri] at hc
      dsimp only at hc
      cases hn : e.name with
      | none =>
        rw [hn] at hc
        simp only [List.mem_singleton] at hc
        subst hc; rfl
      | some nm =>
        rw [hn] at hc
        dsimp only at hc
        cases imageOpt with
        | none =>
          dsimp only at hc
          simp only [List.mem_singleton] at hc
          subst hc; rfl
        | some image =>
          dsimp only at hc
          cases hsub : e.subnet with
          | none =>
            rw [hsub] at hc
            simp only [List.mem_singleton] at hc
            subst hc; rfl
          | some subnet =>
            rw [hsub] at hc
            dsimp only at hc
            cases hbdm : t.buildEphemeralDevices e.instanceType with
            | error msg =>
              rw [hbdm] at hc
              dsimp only at hc
              simp only [List.mem_singleton] at hc
              subst hc; rfl
            | ok bdms =>
              rw [hbdm] at hc
              dsimp only at hc
              cases hud : e.userData with
              | none =>
                rw [hud] at hc
                dsimp only at hc
                simp only [List.cons_append, List.nil_append,
                  List.mem_cons, List.mem_singleton,
                  List.not_mem_nil, or_false] at hc
                rcases hc with rfl | rfl <;> rfl
              | some res =>
                rw [hud] at hc
                dsimp only at hc
                cases hres : ResourceAsBytes res with
                | error msg =>
                  rw [hres] at hc
                  dsimp only at hc
                  simp only [List.mem_singleton] at hc
                  subst hc; rfl
                | ok d =>
                  rw [hres] at hc
                  dsimp only at hc
                  by_cases hlen : d.length > MaxUserDataSize
                  · rw [if_pos hlen] at hc
                    dsimp only at hc
                    simp only [List.mem_singleton] at hc
                    subst hc; rfl
                  · rw [if_neg hlen] at hc
                    dsimp only at hc
                    simp only [List.cons_append, List.nil_append,
                      List.mem_cons, List.mem_singleton,
                      List.not_mem_nil, or_false] at hc
                    rcases hc with rfl | rfl <;> rfl

/-- The final tagging step appends exactly one `addTags` call to the trace
whenever it does not panic on an absent identity. -/
theorem renderTagsFinal_trace (t : AWSTarget) (eI : Instance)
    (calls : List ProviderCall) (iid : String) (hid : eI.id = some iid) :
    (renderTagsFinal t eI calls).1 =
      calls ++ [ProviderCall.addTags iid eI.tags] := by
  unfold renderTagsFinal
  rw [hid]
  dsimp only
  cases haddr : t.addAWSTags iid eI.tags <;> simp

/-- On success the final tagging step succeeds on the instance it was
given. -/
theorem renderTagsFinal_ok (t : AWSTarget) (eI : Instance)
    (calls : List ProviderCall) (e' : Instance)
    (h : (renderTagsFinal t eI calls).2 = .ok e') :
    ∃ iid, eI.id = some iid ∧ e' = eI := by
  unfold renderTagsFinal at h
  cases hid : eI.id with
  | none => rw [hid] at h; exact GoResult.noConfusion h
  | some iid =>
    rw [hid] at h
    dsimp only at h
    cases haddr : t.addAWSTags iid eI.tags with
    | error msg => rw [haddr] at h; exact GoResult.noConfusion h
    | ok u =>
      rw [haddr] at h
      injection h with h1
      exact ⟨iid, rfl, h1.symm⟩

/-- C4: for every successful `RenderAWS` pass — create or update — the
tag-reconciliation provider call appears exactly once in the trace, as the
final call, and the outcome is independent of the supplied change set. -/
theorem C4_renderAWS_tags_once (t : AWSTarget) (a : Option Instance)
    (e : Instance) (changes : Option Instance) (e' : Instance)
    (h : (RenderAWS t a e changes).2 = .ok e') :
    ((RenderAWS t a e changes).1.filter ProviderCall.isAddTags).length
      = 1 ∧
    (∃ c, (RenderAWS t a e changes).1.getLast? = some c ∧
      c.isAddTags = true) ∧
    (∀ ch2, RenderAWS t a e ch2 = RenderAWS t a e changes) := by
  have key :
      ((RenderAWS t a e changes).1.filter ProviderCall.isAddTags).length
        = 1 ∧
      (∃ c, (RenderAWS t a e changes).1.getLast? = some c ∧
        c.isAddTags = true) := by
    cases a with
    | some a0 =>
      simp only [RenderAWS] at h ⊢
      obtain ⟨iid, hid, -⟩ := renderTagsFinal_ok t e [] e' h
      rw [renderTagsFinal_trace t e [] iid hid, List.nil_append]
      exact ⟨by simp [ProviderCall.isAddTags],
        ⟨ProviderCall.addTags iid e.tags, rfl, rfl⟩⟩
    | none =>
      simp only [RenderAWS] at h ⊢
      cases hc : renderCreate t e with
      | mk calls gr =>
        rw [hc] at h
        cases gr with
        | fail msg => exact GoResult.noConfusion h
        | panic => exact GoResult.noConfusion h
        | ok e1 =>
          dsimp only at h ⊢
          obtain ⟨iid, hid, -⟩ := renderTagsFinal_ok t e1 calls e' h
          rw [renderTagsFinal_trace t e1 calls iid hid]
          have hnone : calls.filter ProviderCall.isAddTags = [] := by
            rw [List.filter_eq_nil_iff]
            intro c hcmem
            have := renderCreate_no_addTags t e c (by rw [hc]; exact hcmem)
            simp [this]
          refine ⟨?_, ⟨_, List.getLast?_concat calls, rfl⟩⟩
          rw [List.filter_append, hnone]
          simp [ProviderCall.isAddTags]
  exact ⟨key.1, key.2, fun ch2 => rfl⟩

/-- C4 witness: a successful update pass (actual exists) reconciles tags
exactly once, as its only and final provider call. -/
theorem C4_witness :
    ((RenderAWS sampleTarget (some sampleFoundActual) sampleFoundActual
        none).1.filter ProviderCall.isAddTags).length = 1 :=
  (C4_renderAWS_tags_once sampleTarget (some sampleFoundActual)
      sampleFoundActual none sampleFoundActual (by decide)).1

/-- On the create path, once the image is resolved and the request built,
a decoded startup payload larger than `MaxUserDataSize` makes the create
path fail with the capacity fault reporting the actual size — with the
image-resolution call as the only provider call in the trace. -/
theorem renderCreate_oversized (t : AWSTarget) (e : Instance)
    (ref nm : String) (image : EC2Image) (subnet : Subnet)
    (bdms : List (String × BlockDeviceMapping)) (res : Resource)
    (d : List Nat)
    (h1 : e.imageID = some ref)
    (h2 : t.resolveImage ref = .ok (some image))
    (h3 : e.name = some nm)
    (h4 : e.subnet = some subnet)
    (h5 : t.buildEphemeralDevices e.instanceType = .ok bdms)
    (h6 : e.userData = some res)
    (h7 : ResourceAsBytes res = .ok d)
    (h8 : d.length > MaxUserDataSize) :
    renderCreate t e = ([ProviderCall.resolveImage ref],
      .fail ("Instance UserData was too large (" ++ toString d.length
             ++ " bytes)")) := by
  unfold renderCreate
  rw [h1]
  dsimp only
  rw [h2]
  dsimp only
  rw [h3]
  dsimp only
  rw [h4]
  dsimp only
  rw [h5]
  dsimp only
  rw [h6]
  dsimp only
  rw [h7]
  dsimp only
  rw [if_pos h8]

/-- C3 (amended): on the create path, a UserData payload whose decoded
size exceeds `MaxUserDataSize` makes `RenderAWS` fail with the capacity
fault reporting the actual size, before the instance-creation
(`RunInstances`) provider call and before any tagging call — but after the
image-resolution provider call, which the source performs first. -/
theorem C3_userdata_size_cap (t : AWSTarget) (e : Instance)
    (changes : Option Instance) (ref nm : String) (image : EC2Image)
    (subnet : Subnet) (bdms : List (String × BlockDeviceMapping))
    (res : Resource) (d : List Nat)
    (h1 : e.imageID = some ref)
    (h2 : t.resolveImage ref = .ok (some image))
    (h3 : e.name = some nm)
    (h4 : e.subnet = some subnet)
    (h5 : t.buildEphemeralDevices e.instanceType = .ok bdms)
    (h6 : e.userData = some res)
    (h7 : ResourceAsBytes res = .ok d)
    (h8 : d.length > MaxUserDataSize) :
    (RenderAWS t none e changes).2 =
      .fail ("Instance UserData was too large (" ++ toString d.length
             ++ " bytes)") ∧
    (∀ req, ProviderCall.runInstances req ∉ (RenderAWS t none e changes).1) ∧
    (∀ iid tg, ProviderCall.addTags iid tg ∉ (RenderAWS t none e changes).1) := by
  have hc := renderCreate_oversized t e ref nm image subnet bdms res d
    h1 h2 h3 h4 h5 h6 h7 h8
  simp only [RenderAWS, hc]
  refine ⟨trivial, ?_, ?_⟩ <;> simp

/-- C3 counterexample to "before any provider call": with a payload of
16385 bytes the pass fails with the capacity fault, yet the trace at that
point is not empty — the image-resolution provider call has already been
made. -/
theorem C3_counterexample :
    (RenderAWS sampleTarget none oversizedDesired none).2 =
      .fail "Instance UserData was too large (16385 bytes)" ∧
    (RenderAWS sampleTarget none oversizedDesired none).1 =
      [ProviderCall.resolveImage "ami-x"] ∧
    [ProviderCall.resolveImage "ami-x"] ≠ ([] : List ProviderCall) := by
  have hlen : (List.replicate 16385 7).length = 16385 :=
    List.length_replicate 16385 7
  have hc := renderCreate_oversized sampleTarget oversizedDesired
    "ami-x" "node-1" ⟨some "ami-123"⟩ ⟨some "subnet-1"⟩ []
    (.bytes (List.replicate 16385 7)) (List.replicate 16385 7)
    rfl rfl rfl rfl rfl rfl rfl
    (by rw [hlen]; norm_num [MaxUserDataSize])
  rw [hlen] at hc
  simp only [RenderAWS, hc]
  exact ⟨by rfl, trivial, by simp⟩

/-- C3 witness: the amended theorem applied at the same concrete
oversized input. -/
theorem C3_witness :
    (RenderAWS sampleTarget none oversizedDesired none).2 =
      .fail ("Instance UserData was too large ("
             ++ toString (List.replicate 16385 7).length ++ " bytes)") :=
  (C3_userdata_size_cap sampleTarget oversizedDesired none
      "ami-x" "node-1" ⟨some "ami-123"⟩ ⟨some "subnet-1"⟩ []
      (.bytes (List.replicate 16385 7)) (List.replicate 16385 7)
      rfl rfl rfl rfl rfl rfl rfl
      (by norm_num [MaxUserDataSize])).1

end KopsInstance
